import Mathlib

/-!
Verification of the template expression / mail-merge engine of `src/server.js`.

The JavaScript source is shallowly embedded: JS values become the inductive
type `JSVal`, and the host functions the source calls (`String(...)`,
`parseFloat`, `parseInt`, `Intl.NumberFormat('vi-VN')`, `new Date(...)`,
`JSON.parse`, `JSON.stringify`, `toUpperCase`/`toLowerCase`) are modelled by
executable Lean functions whose doc comments state the exact fragment of host
behaviour they cover. JS numbers are modelled as exact signed decimal
fixed-point values (`Dec`): the values the server manipulates are decimal
literals from templates and JSON payloads, for which binary-double rounding is
immaterial to the claims under scrutiny.
-/

/-! ## Decimal digit utilities -/

/-- Big-endian decimal digit characters of a natural number, fuel-driven so the
definition reduces in the kernel. The fuel only bounds the number of recursive
steps; `fuel = n` is always sufficient. -/
def natCharsAux : Nat → Nat → List Char
  | 0, _ => []
  | _ + 1, 0 => []
  | fuel + 1, n + 1 => natCharsAux fuel ((n + 1) / 10) ++ [Nat.digitChar ((n + 1) % 10)]

/-- Big-endian decimal digit characters of `n` (`"0"` for zero), the model of
JavaScript decimal rendering of a nonnegative integer. -/
def natChars (n : Nat) : List Char :=
  if n = 0 then ['0'] else natCharsAux n n

/-- Decimal value of a list of digit characters, most significant first. -/
def parseNat (l : List Char) : Nat :=
  l.foldl (fun acc c => acc * 10 + (c.toNat - 48)) 0

/-- Left-pad a character list with `c` up to length `n`. -/
def padLeft (n : Nat) (c : Char) (l : List Char) : List Char :=
  List.replicate (n - l.length) c ++ l

/-- Number of trailing `'0'` characters. -/
def trailZeros (l : List Char) : Nat :=
  (l.reverse.takeWhile (fun c => c = '0')).length

/-- Drop trailing `'0'` characters but never shorten the list below `keep`
characters; models `Intl.NumberFormat` minimum-fraction-digits trimming. -/
def trimTZ (keep : Nat) (l : List Char) : List Char :=
  l.take (max keep (l.length - trailZeros l))

/-- Insert a `'.'` grouping separator every three characters counted from the
right, on a reversed digit list. -/
def group3Rev : List Char → List Char
  | a :: b :: c :: d :: rest => a :: b :: c :: '.' :: group3Rev (d :: rest)
  | l => l

/-- Group a big-endian digit list in threes with `'.'` separators: the
`vi-VN` integer grouping of `Intl.NumberFormat`. -/
def group3 (l : List Char) : List Char :=
  (group3Rev l.reverse).reverse

/-! ## JS numbers

A finite JS number is modelled as `(-1)^neg * man / 10^scale`, an exact
decimal fixed-point value. -/

/-- Exact signed decimal fixed-point number: `(-1)^neg * man / 10^scale`. -/
structure Dec where
  neg : Bool
  man : Nat
  scale : Nat
deriving DecidableEq, Repr

/-- The integer part `man / 10^scale` of the absolute value. -/
def Dec.ipart (d : Dec) : Nat := d.man / 10 ^ d.scale

/-- The fractional mantissa `man % 10^scale` of the absolute value. -/
def Dec.fpart (d : Dec) : Nat := d.man % 10 ^ d.scale

/-- A `Dec` with zero fractional part denotes a whole number. -/
def Dec.isWhole (d : Dec) : Bool := d.fpart = 0

/-- Build a nonnegative whole-number `Dec`. -/
def Dec.ofNat (n : Nat) : Dec := ⟨false, n, 0⟩

/-- Model of a JavaScript number as produced by `parseFloat`: NaN, a signed
infinity, or a finite decimal value. -/
inductive JSFloat where
  | nan : JSFloat
  | inf (neg : Bool) : JSFloat
  | fin (d : Dec) : JSFloat
deriving DecidableEq, Repr

/-- Several characters count as whitespace for JS numeric parsing. -/
def isJsWs (c : Char) : Bool :=
  c = ' ' || c = '\t' || c = '\n' || c = '\r'

/-- The `Dec` denoted by `intDigits.fracDigits`. -/
def decOfDigits (neg : Bool) (intDs fracDs : List Char) : Dec :=
  ⟨neg, parseNat (intDs ++ fracDs), fracDs.length⟩

/-- Apply a decimal exponent `e` to a `Dec` (multiply the value by `10^e`). -/
def Dec.applyExp (d : Dec) (e : Int) : Dec :=
  if 0 ≤ e then ⟨d.neg, d.man * 10 ^ e.toNat, d.scale⟩
  else ⟨d.neg, d.man, d.scale + (-e).toNat⟩

/-- Model of the host `parseFloat`: skip leading whitespace, optional sign,
then the longest prefix of the form `digits[.digits][e[sign]digits]` or the
literal `Infinity`; no valid prefix gives NaN. Hexadecimal input and exotic
Unicode whitespace are outside the modelled fragment. -/
def jsParseFloat (s : String) : JSFloat :=
  let l0 := s.data.dropWhile isJsWs
  let neg : Bool := l0.headD ' ' == '-'
  let l := if l0.headD ' ' = '-' ∨ l0.headD ' ' = '+' then l0.tail else l0
  if ("Infinity".data).isPrefixOf l then JSFloat.inf neg
  else
    let intDs := l.takeWhile Char.isDigit
    let r1 := l.dropWhile Char.isDigit
    let fracDs := if r1.headD ' ' = '.' then r1.tail.takeWhile Char.isDigit else []
    let r2 := if r1.headD ' ' = '.' then r1.tail.dropWhile Char.isDigit else r1
    if intDs = [] ∧ fracDs = [] then JSFloat.nan
    else
      let expo : Int := match r2 with
        | 'e' :: '-' :: r => if (r.takeWhile Char.isDigit) = [] then 0 else -(parseNat (r.takeWhile Char.isDigit) : Int)
        | 'E' :: '-' :: r => if (r.takeWhile Char.isDigit) = [] then 0 else -(parseNat (r.takeWhile Char.isDigit) : Int)
        | 'e' :: '+' :: r => (parseNat (r.takeWhile Char.isDigit) : Int)
        | 'E' :: '+' :: r => (parseNat (r.takeWhile Char.isDigit) : Int)
        | 'e' :: r => (parseNat (r.takeWhile Char.isDigit) : Int)
        | 'E' :: r => (parseNat (r.takeWhile Char.isDigit) : Int)
        | _ => 0
      JSFloat.fin ((decOfDigits neg intDs fracDs).applyExp expo)

/-- Model of the host `parseInt(·, 10)`: skip leading whitespace, optional
sign, then the longest prefix of decimal digits; no digits gives NaN
(modelled as `none`). -/
def jsParseInt (s : String) : Option Int :=
  let l0 := s.data.dropWhile isJsWs
  let sign : Int := if l0.headD ' ' = '-' then -1 else 1
  let l := if l0.headD ' ' = '-' ∨ l0.headD ' ' = '+' then l0.tail else l0
  let ds := l.takeWhile Char.isDigit
  if ds = [] then none
  else some (sign * (parseNat ds : Int))

/-! ## JS values -/

/-- Model of the JavaScript values flowing through the server: `undefined`,
`null`, booleans, numbers, strings, arrays and plain objects. -/
inductive JSVal where
  | undef : JSVal
  | null : JSVal
  | bool (b : Bool) : JSVal
  | num (d : Dec) : JSVal
  | str (s : String) : JSVal
  | arr (elems : List JSVal) : JSVal
  | obj (fields : List (String × JSVal)) : JSVal
deriving Repr

/-- Decimal rendering of a `Dec`, the model of JavaScript
`Number.prototype.toString` for the finite decimal values the server
manipulates (no exponent notation, which JS only uses beyond `1e21` or below
`1e-7`). -/
def numToString (d : Dec) : String :=
  let frTrim : List Char := trimTZ 0 (padLeft d.scale '0' (natChars d.fpart))
  String.mk ((if d.neg ∧ d.man ≠ 0 then ['-'] else []) ++ natChars d.ipart ++
    (match frTrim with
     | [] => []
     | f => '.' :: f))

mutual

/-- Model of the host `String(v)` coercion. -/
def jsToString : JSVal → String
  | JSVal.undef => "undefined"
  | JSVal.null => "null"
  | JSVal.bool true => "true"
  | JSVal.bool false => "false"
  | JSVal.num d => numToString d
  | JSVal.str s => s
  | JSVal.arr xs => arrJoin xs
  | JSVal.obj _ => "[object Object]"

/-- Model of `Array.prototype.toString` (`join(',')`), in which `null` and
`undefined` elements render as empty. -/
def arrJoin : List JSVal → String
  | [] => ""
  | x :: xs =>
    (match x with
     | JSVal.undef => ""
     | JSVal.null => ""
     | v => jsToString v) ++
    (match xs with
     | [] => ""
     | _ => "," ++ arrJoin xs)

end

/-- Line 29 of `server.js`:
`v => (v === null || v === undefined || (typeof v === 'object' && Object.keys(v).length === 0)) ? '' : String(v)`.
`typeof v === 'object'` holds exactly for `null`, arrays and plain objects;
the match enumerates the cases in which the guard is true. -/
def ensureString (v : JSVal) : String :=
  match v with
  | JSVal.null => ""
  | JSVal.undef => ""
  | JSVal.obj [] => ""
  | JSVal.arr [] => ""
  | v => jsToString v

example : ensureString (JSVal.obj []) = "" := by decide
example : ensureString (JSVal.num ⟨false, 123456, 3⟩) = "123.456" := by decide
example : jsParseFloat "123.456" = JSFloat.fin ⟨false, 123456, 3⟩ := by decide
example : jsParseFloat "abc" = JSFloat.nan := by decide
example : jsParseFloat "1e3" = JSFloat.fin ⟨false, 1000, 0⟩ := by decide
example : jsParseInt "3.7" = some 3 := by decide
example : jsToString (JSVal.arr [JSVal.num ⟨false, 1, 0⟩, JSVal.null, JSVal.str "x"]) = "1,,x" := by decide

/-! ## Case mapping and the `upper` / `lower` / `capitalize` filters -/

/-- ASCII lower-casing of one character (identity outside `A`-`Z`). -/
def asciiLow (c : Char) : Char :=
  if 65 ≤ c.toNat ∧ c.toNat ≤ 90 then Char.ofNat (c.toNat + 32) else c

/-- ASCII upper-casing of one character (identity outside `a`-`z`). -/
def asciiUp (c : Char) : Char :=
  if 97 ≤ c.toNat ∧ c.toNat ≤ 122 then Char.ofNat (c.toNat - 32) else c

/-- Model of `String.prototype.toLowerCase` on one character. Exact on
ASCII; it also carries the Unicode mappings that do not round-trip through
the upper case and hence falsify `upper(lower(s)) = upper(s)`: U+0130
(LATIN CAPITAL LETTER I WITH DOT ABOVE) → U+0069 U+0307 (SpecialCasing),
U+1E9E (ẞ) → ß, U+212A (KELVIN SIGN) → k, U+212B (ANGSTROM SIGN) → å.
Other non-ASCII letters are left unchanged — a declared model restriction;
the case-identity theorem below therefore quantifies only over ASCII, where
the model is exact. -/
def lowChars (c : Char) : List Char :=
  if c = 'İ' then ['i', '̇']
  else if c = 'ẞ' then ['ß']
  else if c = Char.ofNat 8490 then ['k']
  else if c = Char.ofNat 8491 then ['å']
  else [asciiLow c]

/-- Model of `String.prototype.toUpperCase` on one character: exact on
ASCII, plus the full-casing entry U+00DF (ß) → `SS` and the simple mapping
å → Å reached by the lowered Angstrom sign. Other non-ASCII letters are
left unchanged (same declared restriction as `lowChars`). -/
def upChars (c : Char) : List Char :=
  if c = 'ß' then ['S', 'S']
  else if c = 'å' then ['Å']
  else [asciiUp c]

/-- Model of `String.prototype.toLowerCase`. -/
def jsToLower (s : String) : String := String.mk (s.data.flatMap lowChars)

/-- Model of `String.prototype.toUpperCase`. -/
def jsToUpper (s : String) : String := String.mk (s.data.flatMap upChars)

/-- Line 33: `s => ensureString(s).toUpperCase()`. -/
def upperFilter (v : JSVal) : String := jsToUpper (ensureString v)

/-- Line 34: `s => ensureString(s).toLowerCase()`. -/
def lowerFilter (v : JSVal) : String := jsToLower (ensureString v)

/-- Line 35: `s => { const t = ensureString(s); return t ? t.charAt(0).toUpperCase() + t.slice(1).toLowerCase() : t; }`. -/
def capitalizeFilter (v : JSVal) : String :=
  let t := ensureString v
  match t.data with
  | [] => ""
  | c :: rest => String.mk (upChars c ++ (String.mk rest).data.flatMap lowChars)

example : upperFilter (JSVal.str "héllo") = "HéLLO" := by decide
example : lowerFilter (JSVal.str "ABC") = "abc" := by decide
example : capitalizeFilter (JSVal.str "hELLO") = "Hello" := by decide
example : jsToLower "İ" = "i̇" := by decide
example : jsToUpper (jsToLower "İ") = "İ" := by decide
example : jsToUpper "İ" = "İ" := by decide

/-! ## `Intl.NumberFormat('vi-VN')` model and the numeric filters -/

/-- Mantissa of `|d|` rounded half-away-from-zero to `maxFrac` fractional
digits: `round(man * 10^maxFrac / 10^scale)`, computed in integers as
`floor((2*man*10^maxFrac + 10^scale) / (2*10^scale))`. This is the
`halfExpand` rounding `Intl.NumberFormat` applies to the absolute value. -/
def viRounded (d : Dec) (maxFrac : Nat) : Nat :=
  (2 * d.man * 10 ^ maxFrac + 10 ^ d.scale) / (2 * 10 ^ d.scale)

/-- Fractional digit characters before trimming: always exactly `maxFrac`
characters for `maxFrac > 0`. -/
def viFracFull (d : Dec) (maxFrac : Nat) : List Char :=
  padLeft maxFrac '0' (natChars (viRounded d maxFrac % 10 ^ maxFrac))

/-- Fractional digit characters after minimum-digits trimming. -/
def viFracTrimmed (d : Dec) (minFrac maxFrac : Nat) : List Char :=
  trimTZ minFrac (viFracFull d maxFrac)

/-- Model of `new Intl.NumberFormat('vi-VN', { minimumFractionDigits: minFrac,
maximumFractionDigits: maxFrac }).format` on a finite value: `'.'`-grouped
integer digits, `','` decimal separator, `halfExpand` rounding, trailing
zeros trimmed down to `minFrac` digits. -/
def formatViVN (d : Dec) (minFrac maxFrac : Nat) : String :=
  String.mk ((if d.neg then ['-'] else []) ++
    group3 (natChars (viRounded d maxFrac / 10 ^ maxFrac)) ++
    (match viFracTrimmed d minFrac maxFrac with
     | [] => []
     | f => ',' :: f))

/-- Rendering of a non-NaN parse result, shared by the numeric filters:
finite values go through the `vi-VN` formatter, infinities render as the
infinity sign as `Intl.NumberFormat` does. -/
def viFormatFloat (f : JSFloat) (minFrac maxFrac : Nat) : String :=
  match f with
  | JSFloat.nan => ""
  | JSFloat.inf true => "-∞"
  | JSFloat.inf false => "∞"
  | JSFloat.fin d => formatViVN d minFrac maxFrac

/-- Lines 36-40 of `server.js`: the `number(frac = 0)` filter. `parseFloat`
coerces its argument with `String(...)` first; `NaN` falls back to
`ensureString(val)`. -/
def numberFilter (val : JSVal) (frac : Nat := 0) : String :=
  match jsParseFloat (jsToString val) with
  | JSFloat.nan => ensureString val
  | f => viFormatFloat f frac frac

/-- Lines 42-48 of `server.js`: the `numflex` filter
(`maximumFractionDigits: 20`, default `minimumFractionDigits` of 0). -/
def numflexFilter (val : JSVal) : String :=
  match jsParseFloat (jsToString val) with
  | JSFloat.nan => ensureString val
  | f => viFormatFloat f 0 20

/-- Lines 50-54 of `server.js`: the `currency` filter.
`Intl.NumberFormat('vi-VN', { style: 'currency', currency: 'VND',
minimumFractionDigits: 0 })` formats the number with 0 fractional digits
(VND has zero minor units) followed by a non-breaking space and `₫`. -/
def currencyFilter (v : JSVal) : String :=
  match jsParseFloat (jsToString v) with
  | JSFloat.nan => ensureString v
  | f => viFormatFloat f 0 0 ++ " ₫"

example : numberFilter (JSVal.num ⟨false, 123456, 3⟩) 2 = "123,46" := by decide
example : numberFilter (JSVal.num ⟨false, 1234567891, 3⟩) 2 = "1.234.567,89" := by decide
example : numberFilter (JSVal.num ⟨false, 1234567, 0⟩) 0 = "1.234.567" := by decide
example : numberFilter (JSVal.str "abc") 2 = "abc" := by decide
example : numberFilter JSVal.null 2 = "" := by decide
example : numflexFilter (JSVal.num ⟨false, 100, 0⟩) = "100" := by decide
example : numflexFilter (JSVal.num ⟨false, 1005, 1⟩) = "100,5" := by decide
example : numflexFilter (JSVal.str "2500.25") = "2.500,25" := by decide
example : currencyFilter (JSVal.num ⟨false, 15000, 0⟩) = "15.000 ₫" := by decide
example : currencyFilter JSVal.undef = "" := by decide

/-! ## The `date` filter -/

/-- Gregorian leap-year test. -/
def leapYear (y : Nat) : Bool := y % 4 = 0 && (y % 100 != 0 || y % 400 = 0)

/-- Days in month `m` of year `y`. -/
def daysInMonth (y m : Nat) : Nat :=
  if m = 2 then (if leapYear y then 29 else 28)
  else if m = 4 ∨ m = 6 ∨ m = 9 ∨ m = 11 then 30
  else 31

/-- Day-overflow normalization as performed by the JS `Date` legacy parser
(`MakeDay`): a day beyond the month's length rolls into the following month.
Input days are at most 31, so one roll suffices. -/
def normalizeYMD (y m d : Nat) : Nat × Nat × Nat :=
  if d ≤ daysInMonth y m then (y, m, d)
  else if m = 12 then (y + 1, 1, d - daysInMonth y m)
  else (y, m + 1, d - daysInMonth y m)

/-- Shape check for a time suffix `HH:mm`, `HH:mm:ss` or `HH:mm:ss.fff`
without a timezone designator (a trailing `Z` or offset would shift the
calendar date through the UTC conversion and is outside the model). -/
def timeValid (l : List Char) : Bool :=
  let hh := l.takeWhile Char.isDigit
  let r1 := l.dropWhile Char.isDigit
  if hh.length = 2 ∧ parseNat hh ≤ 23 then
    match r1 with
    | ':' :: r2 =>
      let mm := r2.takeWhile Char.isDigit
      let r3 := r2.dropWhile Char.isDigit
      if mm.length = 2 ∧ parseNat mm ≤ 59 then
        match r3 with
        | [] => true
        | ':' :: r4 =>
          let ss := r4.takeWhile Char.isDigit
          let r5 := r4.dropWhile Char.isDigit
          if ss.length = 2 ∧ parseNat ss ≤ 59 then
            match r5 with
            | [] => true
            | '.' :: r6 => r6 ≠ [] ∧ r6.length ≤ 3 ∧ r6.all Char.isDigit
            | _ => false
          else false
        | _ => false
      else false
    | _ => false
  else false

/-- ISO-form date parsing: `YYYY`, `YYYY-MM` or `YYYY-MM-DD` with strict
ranges, optionally followed (after `T` or a space) by a timezone-free time
part, as `new Date` accepts. Returns year, month, day — under a
non-negative UTC offset the local-time getters keep this calendar date both
for date-only strings (parsed as UTC) and timezone-free date-times (parsed
as local time). -/
def isoParse (l : List Char) : Option (Nat × Nat × Nat) :=
  let yds := l.takeWhile Char.isDigit
  let r1 := l.dropWhile Char.isDigit
  if yds.length ≠ 4 then none
  else
    let y := parseNat yds
    match r1 with
    | [] => some (y, 1, 1)
    | '-' :: r2 =>
      let mds := r2.takeWhile Char.isDigit
      let r3 := r2.dropWhile Char.isDigit
      if mds.length ≠ 2 then none
      else
        let m := parseNat mds
        if 1 ≤ m ∧ m ≤ 12 then
          match r3 with
          | [] => some (y, m, 1)
          | '-' :: r4 =>
            let dds := r4.takeWhile Char.isDigit
            let r5 := r4.dropWhile Char.isDigit
            if dds.length = 2 ∧ 1 ≤ parseNat dds ∧ parseNat dds ≤ daysInMonth y m then
              match r5 with
              | [] => some (y, m, parseNat dds)
              | 'T' :: tr => if timeValid tr then some (y, m, parseNat dds) else none
              | ' ' :: tr => if timeValid tr then some (y, m, parseNat dds) else none
              | _ => none
            else none
          | _ => none
        else none
    | _ => none

/-- The two separators of the date-shape pattern (one or two digits, separator, one or two digits, separator, four digits). -/
def isSep (c : Char) : Bool := c = '/' || c = '-'

/-- Legacy (US month-first) date parsing: `M/D/Y` with `/` or `-`
separators, month 1-12, day 1-31 with day overflow rolled into the next
month. A year of 1-2 digits is mapped as V8 maps it (0-49 into the 2000s,
50-99 into the 1900s); 3-4 digit years are literal (the swapped strings
always carry a 4-digit year). -/
def slashParse (l : List Char) : Option (Nat × Nat × Nat) :=
  let mds := l.takeWhile Char.isDigit
  let r1 := l.dropWhile Char.isDigit
  match r1 with
  | s1 :: r2 =>
    if isSep s1 ∧ mds ≠ [] then
      let dds := r2.takeWhile Char.isDigit
      let r3 := r2.dropWhile Char.isDigit
      match r3 with
      | s2 :: r4 =>
        if isSep s2 ∧ dds ≠ [] ∧ r4 ≠ [] ∧ r4.length ≤ 4 ∧ r4.all Char.isDigit then
          let m := parseNat mds
          let dd := parseNat dds
          let y := if r4.length ≤ 2 then
              (if parseNat r4 < 50 then 2000 + parseNat r4 else 1900 + parseNat r4)
            else parseNat r4
          if 1 ≤ m ∧ m ≤ 12 ∧ 1 ≤ dd ∧ dd ≤ 31 then some (normalizeYMD y m dd)
          else none
        else none
      | [] => none
    else none
  | [] => none

/-- Legacy year-first numeric date parsing: when the first number is 32 or
more it cannot be a day or month, so V8's fallback parser reads it as the
year of a `Y/M/D` or `Y-M-D` date with month 1-12 and day 1-31 (overflow
rolled), e.g. `2024/01/05` and `2024-1-5`. Years beyond 4 digits are
outside the model. -/
def legacyYmd (l : List Char) : Option (Nat × Nat × Nat) :=
  let yds := l.takeWhile Char.isDigit
  let r1 := l.dropWhile Char.isDigit
  if yds ≠ [] ∧ yds.length ≤ 4 ∧ 32 ≤ parseNat yds then
    match r1 with
    | s1 :: r2 =>
      if isSep s1 then
        let mds := r2.takeWhile Char.isDigit
        let r3 := r2.dropWhile Char.isDigit
        match r3 with
        | s2 :: r4 =>
          if isSep s2 ∧ mds ≠ [] ∧ mds.length ≤ 2 ∧ r4 ≠ [] ∧ r4.length ≤ 2 ∧
              r4.all Char.isDigit then
            let m := parseNat mds
            let dd := parseNat r4
            if 1 ≤ m ∧ m ≤ 12 ∧ 1 ≤ dd ∧ dd ≤ 31 then some (normalizeYMD (parseNat yds) m dd)
            else none
          else none
        | [] => none
      else none
    | [] => none
  else none

/-- Model of `new Date(s)` followed by `getFullYear`/`getMonth`/`getDate`
(lines 60-62 of `server.js`). `some` covers the forms above: ISO dates with
optional timezone-free times, year-first numeric dates, and month-first
slash/dash dates with 1-4 digit years; the server runs at a non-negative
UTC offset (Vietnamese deployment), so these keep their calendar date under
the local-time getters. `none` only means the string is outside that
modelled-valid fragment — the predicate `jsDateInvalid` below carves out
the part of `none` that provably is an Invalid Date, and only that part is
used to reason about the unparseable branch. Forms left unmodelled either
way include timezone-suffixed date-times and month-name dates. -/
def jsDateParse (s : String) : Option (Nat × Nat × Nat) :=
  match isoParse s.data with
  | some x => some x
  | none =>
    match legacyYmd s.data with
    | some x => some x
    | none => slashParse s.data

/-- Model of the source's `s.split(...)` on the separator class of `/` and `-`. -/
def splitSeps : List Char → List (List Char)
  | [] => [[]]
  | c :: rest =>
    if isSep c then [] :: splitSeps rest
    else
      match splitSeps rest with
      | [] => [[c]]
      | g :: gs => (c :: g) :: gs

/-- One or two decimal digits. -/
def digits12 (l : List Char) : Bool := !l.isEmpty && l.length ≤ 2 && l.all Char.isDigit

/-- Model of the line 57 regular-expression test (anchored: one or two digits,
separator, one or two digits, separator, four digits), phrased
over the same separator split the source performs next: the pattern holds
exactly when the split yields three all-digit components of widths 1-2, 1-2
and 4. -/
def dmyTest (s : String) : Bool :=
  match splitSeps s.data with
  | [a, b, c] => digits12 a && digits12 b && (c.length == 4) && c.all Char.isDigit
  | _ => false

/-- Line 58: split `s` on the separators and rebuild as `p[1]/p[0]/p[2]`. -/
def dmySwap (s : String) : String :=
  let p := splitSeps s.data
  String.mk ((p.getD 1 []) ++ '/' :: (p.getD 0 []) ++ '/' :: (p.getD 2 []))

/-- `String(n).padStart(2, '0')`. -/
def pad2 (n : Nat) : String := String.mk (padLeft 2 '0' (natChars n))

/-- Model of `String.prototype.replace` with a plain-string pattern: replace
the first occurrence only (the replacement strings here contain no `$`). -/
def replaceFirstCL : List Char → List Char → List Char → List Char
  | [], pat, rep => if pat = [] then rep else []
  | c :: rest, pat, rep =>
    if pat.isPrefixOf (c :: rest) then rep ++ (c :: rest).drop pat.length
    else c :: replaceFirstCL rest pat rep

/-- `replaceFirstCL` on strings. -/
def replaceFirst (s pat rep : String) : String :=
  String.mk (replaceFirstCL s.data pat.data rep.data)

/-- Substitute `dd`, then `MM`, then `yyyy` in the format string, as line 63
does. -/
def dateTokens (fmt : String) (y m d : Nat) : String :=
  replaceFirst (replaceFirst (replaceFirst fmt "dd" (pad2 d)) "MM" (pad2 m)) "yyyy" (String.mk (natChars y))

/-- Lines 56-60 of `server.js`: coerce the input, apply the heuristic
component swap when the pattern matches, and construct the date. -/
def dateParseAfterSwap (input : JSVal) : Option (Nat × Nat × Nat) :=
  let s0 := ensureString input
  let s := if dmyTest s0 then dmySwap s0 else s0
  jsDateParse s

/-- Lines 55-64 of `server.js`: the `date(fmt = 'dd/MM/yyyy')` filter. -/
def dateFilter (input : JSVal) (fmt : String := "dd/MM/yyyy") : String :=
  match dateParseAfterSwap input with
  | none => ensureString input
  | some (y, m, d) => dateTokens fmt y m d

example : dateFilter (JSVal.str "2024-01-05") "dd/MM/yyyy" = "05/01/2024" := by decide
example : dateFilter (JSVal.str "31/01/2024") = "31/01/2024" := by decide
example : dateFilter (JSVal.str "5/1/2024") = "05/01/2024" := by decide
example : dateFilter (JSVal.str "30-02-2024") = "01/03/2024" := by decide
example : dateFilter (JSVal.str "05/13/2024") = "05/13/2024" := by decide
example : dateFilter (JSVal.str "hello") = "hello" := by decide
example : dateFilter JSVal.null = "" := by decide
example : dateFilter (JSVal.str "2024-01-05") "yyyy-MM-dd" = "2024-01-05" := by decide

/-! ## The `limitTo` and `json` filters -/

/-- JS truthiness of a value (`NaN` cannot arise here: filter arguments are
literals from templates). -/
def jsTruthy : JSVal → Bool
  | JSVal.undef => false
  | JSVal.null => false
  | JSVal.bool b => b
  | JSVal.num d => d.man != 0
  | JSVal.str s => !s.data.isEmpty
  | JSVal.arr _ => true
  | JSVal.obj _ => true

/-- Line 65 of `server.js`:
`(v, n) => ensureString(v).slice(0, Math.max(0, parseInt(n || 0, 10)))`.
When `parseInt` yields NaN, `Math.max(0, NaN)` is NaN and `slice(0, NaN)`
takes zero characters. -/
def limitToFilter (v : JSVal) (n : JSVal := JSVal.undef) : String :=
  let nOr := if jsTruthy n then n else JSVal.num (Dec.ofNat 0)
  match jsParseInt (jsToString nOr) with
  | none => String.mk ((ensureString v).data.take 0)
  | some i => String.mk ((ensureString v).data.take (max 0 i).toNat)

/-- JSON string escaping of one character (the control characters beyond
`\n`, `\r`, `\t` do not occur in the values under scrutiny). -/
def jsonQuoteChars (c : Char) : List Char :=
  if c = '"' then ['\\', '"']
  else if c = '\\' then ['\\', '\\']
  else if c = '\n' then ['\\', 'n']
  else if c = '\r' then ['\\', 'r']
  else if c = '\t' then ['\\', 't']
  else [c]

/-- JSON string literal for `s`. -/
def jsonQuote (s : String) : String :=
  "\"" ++ String.mk (s.data.flatMap jsonQuoteChars) ++ "\""

/-- A run of `n` spaces. -/
def spaces (n : Nat) : String := String.mk (List.replicate n ' ')

/-- Join pre-rendered items with `",\n"`, each line indented by `ind`. -/
def joinIndent (ind : Nat) : List String → String
  | [] => ""
  | [x] => spaces ind ++ x
  | x :: xs => spaces ind ++ x ++ ",\n" ++ joinIndent ind xs

mutual

/-- Model of `JSON.stringify(v, null, 2)` at indentation depth `ind`:
`undefined` stringifies to nothing (`none`), object fields with `undefined`
values are skipped, `undefined` array elements render as `null`. -/
def jsonStr (ind : Nat) : JSVal → Option String
  | JSVal.undef => none
  | JSVal.null => some "null"
  | JSVal.bool true => some "true"
  | JSVal.bool false => some "false"
  | JSVal.num d => some (numToString d)
  | JSVal.str s => some (jsonQuote s)
  | JSVal.arr xs =>
    match xs with
    | [] => some "[]"
    | _ => some ("[\n" ++ joinIndent (ind + 2) (jsonArrItems (ind + 2) xs) ++ "\n" ++ spaces ind ++ "]")
  | JSVal.obj fs =>
    match jsonObjItems (ind + 2) fs with
    | [] => some "\x7b\x7d"
    | items => some ("\x7b\n" ++ joinIndent (ind + 2) items ++ "\n" ++ spaces ind ++ "\x7d")

/-- Array elements of `JSON.stringify`; `undefined` becomes `null`. -/
def jsonArrItems (ind : Nat) : List JSVal → List String
  | [] => []
  | x :: xs => ((jsonStr ind x).getD "null") :: jsonArrItems ind xs

/-- Object entries of `JSON.stringify`; fields whose value stringifies to
nothing are skipped. -/
def jsonObjItems (ind : Nat) : List (String × JSVal) → List String
  | [] => []
  | (k, v) :: fs =>
    match jsonStr ind v with
    | none => jsonObjItems ind fs
    | some s => (jsonQuote k ++ ": " ++ s) :: jsonObjItems ind fs

end

/-- Lines 66-68 of `server.js`: the `json` filter,
`v => { try { return JSON.stringify(v, null, 2); } catch { return ensureString(v); } }`.
`JSON.stringify` only throws on cyclic structures, which the inductive value
model cannot express, so the catch branch is unreachable here; the filter
returns the JS `undefined` (`none`) exactly when `stringify` does. -/
def jsonFilter (v : JSVal) : Option String := jsonStr 0 v

example : limitToFilter (JSVal.str "hello") (JSVal.num (Dec.ofNat 3)) = "hel" := by decide
example : limitToFilter (JSVal.str "hi") (JSVal.num (Dec.ofNat 10)) = "hi" := by decide
example : limitToFilter (JSVal.str "hello") (JSVal.str "abc") = "" := by decide
example : limitToFilter (JSVal.str "hello") JSVal.undef = "" := by decide
example : jsonFilter JSVal.null = some "null" := by decide
example : jsonFilter JSVal.undef = none := by decide
example : jsonFilter (JSVal.obj []) = some "\x7b\x7d" := by decide
example : jsonFilter (JSVal.obj [("a", JSVal.num (Dec.ofNat 1))]) = some "\x7b\n  \"a\": 1\n\x7d" := by decide

/-! ## The angular-expressions fragment behind `parser` (line 119)

`parser: tag => ({ get: scope => expressions.compile(tag)(scope) })` compiles
a template tag with the angular-expressions package (the AngularJS 1.x
expression language). The fragment the claims exercise — literals, property
paths, filter pipes and the `+` operator — is embedded as an abstract syntax
tree with the library's evaluation semantics: member access is non-strict
(an absent property reads as `undefined`, never an error), and `+` follows
Angular's definition, which substitutes the defined operand when the other
is `undefined`. -/

/-- Non-strict member access: reading any key off a non-object, or an absent
key off an object, yields `undefined`. -/
def getField : JSVal → String → JSVal
  | JSVal.obj fs, k =>
    match fs.find? (fun p => p.1 == k) with
    | some p => p.2
    | none => JSVal.undef
  | _, _ => JSVal.undef

/-- Full-string numeric conversion exponent helper: the exponent digits must
consume the entire remainder. -/
def jsNumberExp (neg : Bool) (intDs fracDs rest : List Char) : JSFloat :=
  let (eneg, er) := match rest with
    | '-' :: r => (true, r)
    | '+' :: r => (false, r)
    | r => (false, r)
  if er ≠ [] ∧ er.all Char.isDigit then
    JSFloat.fin ((decOfDigits neg intDs fracDs).applyExp ((if eneg then -1 else 1) * (parseNat er : Int)))
  else JSFloat.nan

/-- Model of the host `Number(string)` coercion: unlike `parseFloat` it must
consume the whole (trimmed) string, and an empty string converts to 0. -/
def jsNumberFull (s : String) : JSFloat :=
  let t := ((s.data.dropWhile isJsWs).reverse.dropWhile isJsWs).reverse
  match t with
  | [] => JSFloat.fin (Dec.ofNat 0)
  | _ =>
    let (neg, l) := match t with
      | '-' :: r => (true, r)
      | '+' :: r => (false, r)
      | r => (false, r)
    if l = "Infinity".data then JSFloat.inf neg
    else
      let intDs := l.takeWhile Char.isDigit
      let r1 := l.dropWhile Char.isDigit
      let (fracDs, r2) := match r1 with
        | '.' :: r => (r.takeWhile Char.isDigit, r.dropWhile Char.isDigit)
        | r => ([], r)
      if intDs = [] ∧ fracDs = [] then JSFloat.nan
      else
        match r2 with
        | [] => JSFloat.fin (decOfDigits neg intDs fracDs)
        | 'e' :: rest => jsNumberExp neg intDs fracDs rest
        | 'E' :: rest => jsNumberExp neg intDs fracDs rest
        | _ => JSFloat.nan

/-- Model of the `ToNumber` coercion (the `+frac` on line 39 and numeric
contexts of `+`): objects coerce through their string form. -/
def jsToNumber : JSVal → JSFloat
  | JSVal.undef => JSFloat.nan
  | JSVal.null => JSFloat.fin (Dec.ofNat 0)
  | JSVal.bool true => JSFloat.fin (Dec.ofNat 1)
  | JSVal.bool false => JSFloat.fin (Dec.ofNat 0)
  | JSVal.num d => JSFloat.fin d
  | JSVal.str s => jsNumberFull s
  | JSVal.arr xs => jsNumberFull (jsToString (JSVal.arr xs))
  | JSVal.obj _ => JSFloat.nan

/-- Signed addition of two exact decimals. -/
def decAdd (a b : Dec) : Dec :=
  let k := max a.scale b.scale
  let av : Int := (if a.neg then -1 else 1) * (a.man * 10 ^ (k - a.scale) : Nat)
  let bv : Int := (if b.neg then -1 else 1) * (b.man * 10 ^ (k - b.scale) : Nat)
  let s := av + bv
  ⟨decide (s < 0), s.natAbs, k⟩

/-- The `Dec` behind a defined primitive (`null`, boolean or number) in a
numeric context. -/
def numOf : JSVal → Dec
  | JSVal.bool true => Dec.ofNat 1
  | JSVal.num d => d
  | _ => Dec.ofNat 0

/-- Model of the JS binary `+` on defined operands: arrays and objects
coerce to strings; if either primitive side is a string the result is string
concatenation, otherwise numeric addition. (Operands are defined values of
the kinds template expressions produce; string operands that would coerce to
NaN do not reach the numeric branch, which only sees `null`, booleans and
numbers.) -/
def jsAdd (a b : JSVal) : JSVal :=
  let pa := match a with
    | JSVal.arr xs => JSVal.str (jsToString (JSVal.arr xs))
    | JSVal.obj fs => JSVal.str (jsToString (JSVal.obj fs))
    | v => v
  let pb := match b with
    | JSVal.arr xs => JSVal.str (jsToString (JSVal.arr xs))
    | JSVal.obj fs => JSVal.str (jsToString (JSVal.obj fs))
    | v => v
  match pa, pb with
  | JSVal.str sa, vb => JSVal.str (sa ++ jsToString vb)
  | va, JSVal.str sb => JSVal.str (jsToString va ++ sb)
  | va, vb => JSVal.num (decAdd (numOf va) (numOf vb))

/-- Angular's `+`: `if (isDefined(a)) { if (isDefined(b)) return a + b;
return a; } return isDefined(b) ? b : undefined;` — an `undefined` operand is
coalesced away instead of poisoning the sum. -/
def angularPlus (a b : JSVal) : JSVal :=
  match a, b with
  | JSVal.undef, JSVal.undef => JSVal.undef
  | JSVal.undef, b => b
  | a, JSVal.undef => a
  | a, b => jsAdd a b

/-- Abstract syntax of the template expression fragment under scrutiny:
literals, property paths, filter pipes (`expr | name:arg:...`) and `+`. -/
inductive AExpr where
  | lit (v : JSVal) : AExpr
  | path (root : String) (rest : List String) : AExpr
  | pipe (e : AExpr) (name : String) (args : List AExpr) : AExpr
  | plus (l r : AExpr) : AExpr
deriving Repr

/-- The `minimumFractionDigits`/`maximumFractionDigits` option coercion of
`Intl.NumberFormat` (`+frac` then `DefaultNumberOption`): NaN, a negative
value or a value above 100 raises `RangeError`; otherwise the floor is
taken. -/
def fracArgNat (a : JSVal) : Option Nat :=
  match jsToNumber a with
  | JSFloat.fin d =>
    if d.neg ∧ d.man ≠ 0 then none
    else if d.ipart ≤ 100 then some d.ipart
    else none
  | _ => none

/-- The process-wide filter registry seeded on lines 33-68 of `server.js`,
as a partial map from filter name to a function of the piped value and the
literal arguments. Argument-coercion failures (`RangeError` from
`Intl.NumberFormat`, calling `replace` on a non-string format) surface as
`Except.error`. -/
def filterRegistry (name : String) : Option (JSVal → List JSVal → Except String JSVal) :=
  if name = "upper" then some (fun v _ => Except.ok (JSVal.str (upperFilter v)))
  else if name = "lower" then some (fun v _ => Except.ok (JSVal.str (lowerFilter v)))
  else if name = "capitalize" then some (fun v _ => Except.ok (JSVal.str (capitalizeFilter v)))
  else if name = "number" then some (fun v args =>
    match args with
    | [] => Except.ok (JSVal.str (numberFilter v 0))
    | a :: _ =>
      match fracArgNat a with
      | some k => Except.ok (JSVal.str (numberFilter v k))
      | none => Except.error "RangeError: invalid digits value")
  else if name = "numflex" then some (fun v _ => Except.ok (JSVal.str (numflexFilter v)))
  else if name = "currency" then some (fun v _ => Except.ok (JSVal.str (currencyFilter v)))
  else if name = "date" then some (fun v args =>
    match args with
    | [] => Except.ok (JSVal.str (dateFilter v))
    | JSVal.str f :: _ => Except.ok (JSVal.str (dateFilter v f))
    | _ :: _ => Except.error "TypeError: fmt.replace is not a function")
  else if name = "limitTo" then some (fun v args =>
    Except.ok (JSVal.str (limitToFilter v (args.headD JSVal.undef))))
  else if name = "json" then some (fun v _ =>
    Except.ok (match jsonFilter v with
      | some s => JSVal.str s
      | none => JSVal.undef))
  else none

mutual

/-- Model of evaluating a compiled angular expression against a scope:
non-strict path resolution, filter application through the registry, and the
Angular `+`. An unknown filter name is the one evaluation error the fragment
can raise at the top level; filters themselves may reject malformed literal
arguments. -/
def evalA (sc : JSVal) : AExpr → Except String JSVal
  | AExpr.lit v => Except.ok v
  | AExpr.path root rest => Except.ok (List.foldl getField (getField sc root) rest)
  | AExpr.pipe e name args =>
    match filterRegistry name with
    | none => Except.error ("Unknown filter: " ++ name)
    | some f =>
      match evalA sc e with
      | Except.error err => Except.error err
      | Except.ok v =>
        match evalArgs sc args with
        | Except.error err => Except.error err
        | Except.ok vs => f v vs
  | AExpr.plus l r =>
    match evalA sc l with
    | Except.error err => Except.error err
    | Except.ok a =>
      match evalA sc r with
      | Except.error err => Except.error err
      | Except.ok b => Except.ok (angularPlus a b)

/-- Evaluate filter arguments left to right. -/
def evalArgs (sc : JSVal) : List AExpr → Except String (List JSVal)
  | [] => Except.ok []
  | e :: es =>
    match evalA sc e with
    | Except.error err => Except.error err
    | Except.ok v =>
      match evalArgs sc es with
      | Except.error err => Except.error err
      | Except.ok vs => Except.ok (v :: vs)

end

example : evalA (JSVal.obj []) (AExpr.path "missing" ["a", "b"]) = Except.ok JSVal.undef := by rfl
example : evalA (JSVal.obj []) (AExpr.pipe (AExpr.path "missing" []) "upper" []) = Except.ok (JSVal.str "") := by rfl
example : evalA (JSVal.obj []) (AExpr.pipe (AExpr.path "missing" []) "json" []) = Except.ok JSVal.undef := by rfl
example : evalA (JSVal.obj []) (AExpr.plus (AExpr.path "missing" []) (AExpr.lit (JSVal.num (Dec.ofNat 5)))) = Except.ok (JSVal.num (Dec.ofNat 5)) := by rfl
example : evalA (JSVal.obj [("x", JSVal.num (Dec.ofNat 2))]) (AExpr.plus (AExpr.path "x" []) (AExpr.lit (JSVal.num (Dec.ofNat 5)))) = Except.ok (JSVal.num ⟨false, 7, 0⟩) := by rfl

/-! ## `JSON.parse` model -/

/-- JSON whitespace. -/
def jsonWs (c : Char) : Bool := c = ' ' || c = '\t' || c = '\n' || c = '\r'

/-- The opening curly bracket. -/
def jsonLB : Char := Char.ofNat 123

/-- The closing curly bracket. -/
def jsonRB : Char := Char.ofNat 125

/-- String body parsing after the opening quote, with the standard escapes
(`\uXXXX` escapes are outside the modelled fragment). -/
def jsonStringAux : Nat → List Char → List Char → Option (String × List Char)
  | 0, _, _ => none
  | fuel + 1, acc, l =>
    match l with
    | [] => none
    | '"' :: r => some (String.mk acc.reverse, r)
    | '\\' :: e :: r =>
      if e = '"' then jsonStringAux fuel ('"' :: acc) r
      else if e = '\\' then jsonStringAux fuel ('\\' :: acc) r
      else if e = '/' then jsonStringAux fuel ('/' :: acc) r
      else if e = 'n' then jsonStringAux fuel ('\n' :: acc) r
      else if e = 'r' then jsonStringAux fuel ('\r' :: acc) r
      else if e = 't' then jsonStringAux fuel ('\t' :: acc) r
      else if e = 'b' then jsonStringAux fuel (Char.ofNat 8 :: acc) r
      else if e = 'f' then jsonStringAux fuel (Char.ofNat 12 :: acc) r
      else none
    | c :: r => jsonStringAux fuel (c :: acc) r

/-- Number exponent-and-finish: emit the numeric value and the remainder. -/
def jsonNumExp (neg : Bool) (intDs fracDs : List Char) (r : List Char) : Option (JSVal × List Char) :=
  match r with
  | 'e' :: rr =>
    let (eneg, er) := match rr with
      | '-' :: x => (true, x)
      | '+' :: x => (false, x)
      | x => (false, x)
    let eds := er.takeWhile Char.isDigit
    if eds = [] then none
    else some (JSVal.num ((decOfDigits neg intDs fracDs).applyExp ((if eneg then -1 else 1) * (parseNat eds : Int))), er.dropWhile Char.isDigit)
  | 'E' :: rr =>
    let (eneg, er) := match rr with
      | '-' :: x => (true, x)
      | '+' :: x => (false, x)
      | x => (false, x)
    let eds := er.takeWhile Char.isDigit
    if eds = [] then none
    else some (JSVal.num ((decOfDigits neg intDs fracDs).applyExp ((if eneg then -1 else 1) * (parseNat eds : Int))), er.dropWhile Char.isDigit)
  | _ => some (JSVal.num (decOfDigits neg intDs fracDs), r)

/-- JSON number parsing (strict: no leading `+`, no leading zeros, at least
one digit after a decimal point). -/
def jsonNumber (l : List Char) : Option (JSVal × List Char) :=
  let (neg, l1) := match l with
    | '-' :: r => (true, r)
    | r => (false, r)
  let intDs := l1.takeWhile Char.isDigit
  let r1 := l1.dropWhile Char.isDigit
  if intDs = [] then none
  else if 1 < intDs.length ∧ intDs.headD '0' = '0' then none
  else
    match r1 with
    | '.' :: rf =>
      let fracDs := rf.takeWhile Char.isDigit
      if fracDs = [] then none else jsonNumExp neg intDs fracDs (rf.dropWhile Char.isDigit)
    | _ => jsonNumExp neg intDs [] r1

mutual

/-- Model of JSON value parsing: on success returns the value and the unread
remainder; `none` models a `SyntaxError` thrown by `JSON.parse`. The fuel
bounds nesting depth and is always sufficient at `input length + 1`. -/
def jsonVal : Nat → List Char → Option (JSVal × List Char)
  | 0, _ => none
  | fuel + 1, l0 =>
    let l := l0.dropWhile jsonWs
    if ("null".data).isPrefixOf l then some (JSVal.null, l.drop 4)
    else if ("true".data).isPrefixOf l then some (JSVal.bool true, l.drop 4)
    else if ("false".data).isPrefixOf l then some (JSVal.bool false, l.drop 5)
    else
      match l with
      | [] => none
      | c :: r =>
        if c = '"' then
          match jsonStringAux (r.length + 1) [] r with
          | some (s, r2) => some (JSVal.str s, r2)
          | none => none
        else if c = '[' then
          let r1 := r.dropWhile jsonWs
          match r1 with
          | ']' :: r2 => some (JSVal.arr [], r2)
          | _ =>
            match jsonElems fuel r1 with
            | some (xs, r2) => some (JSVal.arr xs, r2)
            | none => none
        else if c = jsonLB then
          let r1 := r.dropWhile jsonWs
          match r1 with
          | c2 :: r2 =>
            if c2 = jsonRB then some (JSVal.obj [], r2)
            else
              match jsonMembers fuel r1 with
              | some (ms, r2) => some (JSVal.obj ms, r2)
              | none => none
          | [] => none
        else jsonNumber l

/-- Array elements: value, then either `,` and more elements or the closing
bracket. -/
def jsonElems : Nat → List Char → Option (List JSVal × List Char)
  | 0, _ => none
  | fuel + 1, l =>
    match jsonVal fuel l with
    | none => none
    | some (v, r) =>
      let r1 := r.dropWhile jsonWs
      match r1 with
      | ',' :: r2 =>
        match jsonElems fuel r2 with
        | some (vs, r3) => some (v :: vs, r3)
        | none => none
      | ']' :: r2 => some ([v], r2)
      | _ => none

/-- Object members: quoted key, colon, value, then either `,` and more
members or the closing curly bracket. -/
def jsonMembers : Nat → List Char → Option (List (String × JSVal) × List Char)
  | 0, _ => none
  | fuel + 1, l =>
    match l with
    | [] => none
    | c :: r =>
      if c = '"' then
        match jsonStringAux (r.length + 1) [] r with
        | none => none
        | some (k, r1) =>
          let r2 := r1.dropWhile jsonWs
          match r2 with
          | ':' :: r3 =>
            match jsonVal fuel r3 with
            | none => none
            | some (v, r4) =>
              let r5 := r4.dropWhile jsonWs
              match r5 with
              | ',' :: r6 =>
                match jsonMembers fuel (r6.dropWhile jsonWs) with
                | some (ms, r7) => some ((k, v) :: ms, r7)
                | none => none
              | c2 :: r6 => if c2 = jsonRB then some ([(k, v)], r6) else none
              | [] => none
          | _ => none
      else none

end

/-- Model of `JSON.parse(s)`: parse one value and require only whitespace to
remain; `none` models a thrown `SyntaxError`. -/
def jsonParse (s : String) : Option JSVal :=
  match jsonVal (s.length + 1) s.data with
  | some (v, r) => if r.dropWhile jsonWs = [] then some v else none
  | none => none

example : jsonParse "\x7b\"a\": 1.5, \"b\": [true, null]\x7d" = some (JSVal.obj [("a", JSVal.num ⟨false, 15, 1⟩), ("b", JSVal.arr [JSVal.bool true, JSVal.null])]) := by rfl
example : jsonParse "\x7b" = none := by rfl
example : jsonParse "not json" = none := by rfl
example : jsonParse "" = none := by rfl
example : jsonParse "\x7b\x7d" = some (JSVal.obj []) := by rfl

/-! ## The `/generate` route (lines 92-150) -/

/-- One docxtemplater per-placeholder error record (the elements of
`renderErr.properties.errors`), reduced to the raw expression and its
cause. -/
structure PlacError where
  expression : String
  cause : String
deriving DecidableEq, Repr

/-- Outcome of the engine phase (PizZip construction + docxtemplater render
+ zip regeneration) that the route wraps in try/catch: the container threw
(outer catch), `doc.render` threw with or without `properties.errors`
(inner catch), or rendering succeeded with output bytes. -/
inductive MergeResult where
  | malformed (err : String) : MergeResult
  | renderErrors (errs : List PlacError) : MergeResult
  | renderFail (msg : String) : MergeResult
  | success (out : List Nat) : MergeResult
deriving DecidableEq, Repr

/-- The `details` component of a JSON error response: absent, a plain
string, or the sequence of per-placeholder records. -/
inductive Details where
  | nothing : Details
  | str (s : String) : Details
  | errors (l : List PlacError) : Details
deriving DecidableEq, Repr

/-- A `/generate` response: HTTP status, the `message` field, the optional
`details` field, and the document bytes on success. -/
structure GenResponse where
  status : Nat
  message : String
  details : Details
  body : Option (List Nat)
deriving DecidableEq, Repr

/-- Lines 104-111: `let formData = {}; if (req.body && req.body.data) {
try { formData = JSON.parse(req.body.data); } catch { formData = {}; } }`.
An absent field and a failed parse both leave the empty object (an empty
string field is skipped by the truthiness test, and would fail the parse
anyway). -/
def parseDataField : Option String → JSVal
  | none => JSVal.obj []
  | some s => (jsonParse s).getD (JSVal.obj [])

/-- Lines 92-150 of `server.js`: the `/generate` handler's control flow and
response bodies. The engine phase is the abstracted collaborator `merge`
(its outcome decides which catch block runs); output filename and response
headers are transport concerns outside the model. The branches are, in
source order: no uploaded file → 400 with a bare message; container fault →
outer catch, 500 with `String(err)` as details; render fault → inner catch,
500 with `properties.errors` when present, else the error message string;
success → the document bytes. -/
def handleGenerate (merge : List Nat → JSVal → MergeResult) (file : Option (List Nat)) (dataField : Option String) : GenResponse :=
  match file with
  | none => ⟨400, "Không tìm thấy file template.", Details.nothing, none⟩
  | some buf =>
    let formData := parseDataField dataField
    match merge buf formData with
    | MergeResult.malformed e => ⟨500, "Lỗi server khi tạo DOCX", Details.str e, none⟩
    | MergeResult.renderErrors es => ⟨500, "Lỗi khi render template DOCX (kiểm tra placeholders).", Details.errors es, none⟩
    | MergeResult.renderFail m => ⟨500, "Lỗi khi render template DOCX (kiểm tra placeholders).", Details.str m, none⟩
    | MergeResult.success out => ⟨200, "", Details.nothing, some out⟩

/-! ## Output byte generation (PizZip + docxtemplater) -/

/-- One entry of the document container: part name, textual content, and the
DOS timestamp stored in its zip headers. -/
structure ZipEntry where
  name : String
  content : String
  dosTime : Nat
deriving DecidableEq, Repr

/-- Byte sequence of a string (code points; exact byte-level UTF-8 is
immaterial to the claims, which compare whole outputs). -/
def strBytes (s : String) : List Nat := s.data.map Char.toNat

/-- 16-bit little-endian encoding. -/
def encode16 (n : Nat) : List Nat := [n % 256, n / 256 % 256]

/-- Serialization of one zip local-file record: magic, DOS time field, name
and content with their lengths — the fields of the real format that the
claims depend on, in particular the per-entry timestamp bytes. -/
def serializeEntry (e : ZipEntry) : List Nat :=
  [80, 75, 3, 4] ++ encode16 e.dosTime ++ encode16 e.name.length ++ strBytes e.name ++
    encode16 (strBytes e.content).length ++ strBytes e.content

/-- Model of `doc.getZip().generate({type: 'nodebuffer'})`: concatenated
entry records. -/
def zipGenerate (es : List ZipEntry) : List Nat := es.flatMap serializeEntry

/-- DOS timestamps (zip header time fields) have 2-second resolution. -/
def dosTimestamp (epochSeconds : Nat) : Nat := epochSeconds / 2 % 65536

/-- Split a tag on the `.` path separator. -/
def splitDots : List Char → List (List Char)
  | [] => [[]]
  | c :: rest =>
    if c = '.' then [] :: splitDots rest
    else
      match splitDots rest with
      | [] => [[c]]
      | g :: gs => (c :: g) :: gs

/-- Resolve one template tag as a dotted property path against the data
scope and render it as literal text (the docxtemplater substitution step,
restricted to the property-path tags the determinism claims exercise). -/
def resolveTag (data : JSVal) (tag : List Char) : String :=
  match (splitDots tag).map String.mk with
  | [] => ""
  | root :: rest => ensureString (List.foldl getField (getField data root) rest)

/-- Scan the part's text and substitute each curly-bracketed tag; fuel is
bounded by the text length. -/
def renderChars : Nat → List Char → JSVal → List Char
  | 0, l, _ => l
  | fuel + 1, l, data =>
    match l with
    | [] => []
    | c :: rest =>
      if c = jsonLB then
        let tag := rest.takeWhile (fun c2 => c2 != jsonRB)
        let r2 := rest.dropWhile (fun c2 => c2 != jsonRB)
        match r2 with
        | [] => c :: renderChars fuel rest data
        | _ :: r3 => (resolveTag data tag).data ++ renderChars fuel r3 data
      else c :: renderChars fuel rest data

/-- Substitute all tags of one part. -/
def renderText (s : String) (data : JSVal) : String :=
  String.mk (renderChars (s.length + 1) s.data data)

/-- Model of `doc.render()` followed by regeneration: the document part
`word/document.xml` is rewritten with substituted content and re-added to
the container. PizZip's `file()` stamps a (re-)added entry with the current
clock (`prepareFileAttrs`: `o.date = o.date || new Date()`), so the
rewritten entry carries the render-time DOS timestamp while untouched
entries keep the dates loaded from the template bytes. -/
def renderDocx (tpl : List ZipEntry) (data : JSVal) (nowSecs : Nat) : List ZipEntry :=
  tpl.map (fun e =>
    if e.name = "word/document.xml" then ⟨e.name, renderText e.content data, dosTimestamp nowSecs⟩ else e)

/-- The full byte-producing pipeline of one successful merge, as a function
of template entries, data scope, and the wall-clock time of the run. -/
def generateBytes (tpl : List ZipEntry) (data : JSVal) (nowSecs : Nat) : List Nat :=
  zipGenerate (renderDocx tpl data nowSecs)

example : (handleGenerate (fun _ _ => MergeResult.success []) none none).status = 400 := by decide
example : renderText "Hello \x7bname\x7d!" (JSVal.obj [("name", JSVal.str "An")]) = "Hello An!" := by rfl
example :
    generateBytes [⟨"word/document.xml", "x \x7ba\x7d", 7⟩] (JSVal.obj [("a", JSVal.str "1")]) 0 ≠
    generateBytes [⟨"word/document.xml", "x \x7ba\x7d", 7⟩] (JSVal.obj [("a", JSVal.str "1")]) 2 := by decide

/-! ## Shared helper lemmas -/

theorem charOfNat_toNat (n : Nat) (h : n < 55296) : (Char.ofNat n).toNat = n := by
  have hv : Nat.isValidChar n := Or.inl h
  simp [Char.ofNat, hv, Char.ofNatAux, Char.toNat, UInt32.toNat]

theorem asciiUp_asciiLow (c : Char) : asciiUp (asciiLow c) = asciiUp c := by
  unfold asciiLow asciiUp
  by_cases h : 65 ≤ c.toNat ∧ c.toNat ≤ 90
  · have ht : (Char.ofNat (c.toNat + 32)).toNat = c.toNat + 32 := charOfNat_toNat _ (by omega)
    rw [if_pos h, ht, if_pos (by omega), if_neg (by omega)]
    have h32 : c.toNat + 32 - 32 = c.toNat := by omega
    rw [h32, Char.ofNat_toNat]
  · rw [if_neg h]

theorem takeWhile_all (p : Char → Bool) (xs : List Char) (hxs : ∀ c ∈ xs, p c = true) :
    xs.takeWhile p = xs := by
  induction xs with
  | nil => rfl
  | cons a as ih =>
    simp only [List.takeWhile_cons, hxs a (List.mem_cons_self a as), if_true]
    rw [ih (fun c hc => hxs c (List.mem_cons_of_mem a hc))]

theorem dropWhile_all (p : Char → Bool) (xs : List Char) (hxs : ∀ c ∈ xs, p c = true) :
    xs.dropWhile p = [] := by
  induction xs with
  | nil => rfl
  | cons a as ih =>
    simp only [List.dropWhile_cons, hxs a (List.mem_cons_self a as), if_true]
    exact ih (fun c hc => hxs c (List.mem_cons_of_mem a hc))

/-- C1 (counterexample): the `json` filter applied to `null` returns the
JSON dump `"null"` — not the empty string — and this is its normal
operation, not the cyclic-structure fallback, so the claim that every
registered filter yields the empty string on `null` input is false. -/
theorem json_filter_null_not_empty :
    jsonFilter JSVal.null = some "null" ∧ jsonFilter JSVal.null ≠ some "" := by
  exact ⟨rfl, by decide⟩

/-- C1 (amended): on `null`, `undefined` and keyless-object input the
filters `upper`, `lower`, `capitalize`, `number`, `numflex`, `currency`,
`date` and `limitTo` all yield the empty string without raising; the `json`
filter is the exception — it returns the JSON dump (`"null"` for `null`,
the empty-object dump for `{}`) and the JS `undefined` for `undefined`. -/
theorem filters_empty_input_amended :
    (upperFilter JSVal.null = "" ∧ upperFilter JSVal.undef = "" ∧ upperFilter (JSVal.obj []) = "") ∧
    (lowerFilter JSVal.null = "" ∧ lowerFilter JSVal.undef = "" ∧ lowerFilter (JSVal.obj []) = "") ∧
    (capitalizeFilter JSVal.null = "" ∧ capitalizeFilter JSVal.undef = "" ∧ capitalizeFilter (JSVal.obj []) = "") ∧
    (numberFilter JSVal.null = "" ∧ numberFilter JSVal.undef = "" ∧ numberFilter (JSVal.obj []) = "") ∧
    (numflexFilter JSVal.null = "" ∧ numflexFilter JSVal.undef = "" ∧ numflexFilter (JSVal.obj []) = "") ∧
    (currencyFilter JSVal.null = "" ∧ currencyFilter JSVal.undef = "" ∧ currencyFilter (JSVal.obj []) = "") ∧
    (dateFilter JSVal.null = "" ∧ dateFilter JSVal.undef = "" ∧ dateFilter (JSVal.obj []) = "") ∧
    (limitToFilter JSVal.null = "" ∧ limitToFilter JSVal.undef = "" ∧ limitToFilter (JSVal.obj []) = "") ∧
    (jsonFilter JSVal.null = some "null" ∧ jsonFilter JSVal.undef = none ∧
      jsonFilter (JSVal.obj []) = some "\x7b\x7d") := by
  decide

/-! ## Claim C7 -/

/-- C7 (counterexample): for `s` = U+0130 (LATIN CAPITAL LETTER I WITH DOT
ABOVE), `toLowerCase` produces U+0069 U+0307 (Unicode SpecialCasing), whose
`toUpperCase` is `I` followed by U+0307 — two code points — while
`toUpperCase` of the original is U+0130 itself, so `upper(lower(s))` and
`upper(s)` differ. -/
theorem upper_lower_counterexample :
    upperFilter (JSVal.str (lowerFilter (JSVal.str "İ"))) ≠ upperFilter (JSVal.str "İ") := by
  decide

theorem upLow_chars_ascii (c : Char) (h : c.toNat < 128) :
    (lowChars c).flatMap upChars = upChars c := by
  have hI : c ≠ 'İ' := fun he => by rw [he] at h; exact absurd h (by decide)
  have hS : c ≠ 'ẞ' := fun he => by rw [he] at h; exact absurd h (by decide)
  have hK : c ≠ Char.ofNat 8490 := fun he => by rw [he] at h; exact absurd h (by decide)
  have hA : c ≠ Char.ofNat 8491 := fun he => by rw [he] at h; exact absurd h (by decide)
  unfold lowChars
  rw [if_neg hI, if_neg hS, if_neg hK, if_neg hA]
  show upChars (asciiLow c) ++ [] = upChars c
  rw [List.append_nil]
  have hlow128 : (asciiLow c).toNat < 128 := by
    unfold asciiLow
    by_cases hr : 65 ≤ c.toNat ∧ c.toNat ≤ 90
    · rw [if_pos hr, charOfNat_toNat _ (by omega)]
      omega
    · rw [if_neg hr]
      exact h
  have hlb : asciiLow c ≠ 'ß' := fun he => by rw [he] at hlow128; exact absurd hlow128 (by decide)
  have hla : asciiLow c ≠ 'å' := fun he => by rw [he] at hlow128; exact absurd hlow128 (by decide)
  have hcb : c ≠ 'ß' := fun he => by rw [he] at h; exact absurd h (by decide)
  have hca : c ≠ 'å' := fun he => by rw [he] at h; exact absurd h (by decide)
  unfold upChars
  rw [if_neg hlb, if_neg hla, if_neg hcb, if_neg hca, asciiUp_asciiLow]

theorem upLow_list_ascii (l : List Char) (h : ∀ c ∈ l, c.toNat < 128) :
    (l.flatMap lowChars).flatMap upChars = l.flatMap upChars := by
  induction l with
  | nil => rfl
  | cons a as ih =>
    simp only [List.flatMap_cons, List.flatMap_append]
    rw [upLow_chars_ascii a (h a (List.mem_cons_self a as)),
      ih (fun c hc => h c (List.mem_cons_of_mem a hc))]

/-- C7 (amended): `upper(lower(s))` equals `upper(s)` for every ASCII
string; the identity genuinely fails beyond ASCII wherever a case mapping
does not round-trip — at U+0130 (the counterexample above) and equally at
U+1E9E (ẞ lower-cases to ß whose upper case is `SS`) and U+212A (KELVIN
SIGN lower-cases to `k` whose upper case is the ordinary U+004B `K`), both
reproduced here. -/
theorem upper_lower_ascii :
    (∀ s : String, (∀ c ∈ s.data, c.toNat < 128) →
        upperFilter (JSVal.str (lowerFilter (JSVal.str s))) = upperFilter (JSVal.str s)) ∧
    upperFilter (JSVal.str (lowerFilter (JSVal.str "ẞ"))) ≠ upperFilter (JSVal.str "ẞ") ∧
    upperFilter (JSVal.str (lowerFilter (JSVal.str (String.mk [Char.ofNat 8490])))) ≠
      upperFilter (JSVal.str (String.mk [Char.ofNat 8490])) := by
  refine ⟨?_, by decide, by decide⟩
  intro s h
  have e1 : ∀ t, ensureString (JSVal.str t) = t := fun t => rfl
  simp only [upperFilter, lowerFilter, e1, jsToUpper, jsToLower]
  exact congrArg String.mk (upLow_list_ascii s.data h)

theorem upper_lower_ascii_witness :
    (∀ c ∈ ("Hello World".data), c.toNat < 128) ∧
    upperFilter (JSVal.str (lowerFilter (JSVal.str "Hello World"))) =
      upperFilter (JSVal.str "Hello World") :=
  ⟨by decide, upper_lower_ascii.1 "Hello World" (by decide)⟩

/-! ## Claim C3 -/

theorem pathGet_undef (rest : List String) :
    List.foldl getField JSVal.undef rest = JSVal.undef := by
  induction rest with
  | nil => rfl
  | cons a as ih => simpa [getField] using ih

/-- C3 (counterexample): the expression `missing + 5` over a scope with no
`missing` key evaluates — without error — to the number 5, because Angular's
`+` substitutes the defined operand when the other is `undefined`; the
result is not an empty value, so "yields an empty value … when … combined
with an operator" is false as stated. -/
theorem absent_path_plus_literal_not_empty :
    evalA (JSVal.obj []) (AExpr.plus (AExpr.path "missing" []) (AExpr.lit (JSVal.num (Dec.ofNat 5)))) =
      Except.ok (JSVal.num (Dec.ofNat 5)) ∧
    JSVal.num (Dec.ofNat 5) ≠ JSVal.undef ∧
    JSVal.num (Dec.ofNat 5) ≠ JSVal.null ∧
    JSVal.num (Dec.ofNat 5) ≠ JSVal.str "" :=
  ⟨rfl, fun h => JSVal.noConfusion h, fun h => JSVal.noConfusion h, fun h => JSVal.noConfusion h⟩

/-- C3 (amended): when the root property of an expression's path is absent
from the scope, evaluation never raises: direct property access (of any
depth) yields `undefined`, which renders empty; piping the absent value
through any of the eight string-producing registered filters yields the
empty string; piping it through `json` yields `undefined`; and combining it
with the `+` operator succeeds, producing the other operand coalesced by
Angular's `+` (so the result need not be empty). -/
theorem absent_path_eval_amended :
    (∀ (sc : JSVal) (root : String) (rest : List String),
        getField sc root = JSVal.undef →
        evalA sc (AExpr.path root rest) = Except.ok JSVal.undef) ∧
    (∀ (sc : JSVal) (root : String) (rest : List String) (name : String),
        getField sc root = JSVal.undef →
        name ∈ ["upper", "lower", "capitalize", "number", "numflex", "currency", "date", "limitTo"] →
        evalA sc (AExpr.pipe (AExpr.path root rest) name []) = Except.ok (JSVal.str "")) ∧
    (∀ (sc : JSVal) (root : String) (rest : List String),
        getField sc root = JSVal.undef →
        evalA sc (AExpr.pipe (AExpr.path root rest) "json" []) = Except.ok JSVal.undef) ∧
    (∀ (sc : JSVal) (root : String) (rest : List String) (r : AExpr) (v : JSVal),
        getField sc root = JSVal.undef → evalA sc r = Except.ok v →
        evalA sc (AExpr.plus (AExpr.path root rest) r) = Except.ok (angularPlus JSVal.undef v)) := by
  refine ⟨?_, ?_, ?_, ?_⟩
  · intro sc root rest h
    simp only [evalA, h, pathGet_undef]
  · intro sc root rest name h hmem
    fin_cases hmem
    all_goals simp only [evalA, h, pathGet_undef]
    all_goals rfl
  · intro sc root rest h
    simp only [evalA, h, pathGet_undef]
    rfl
  · intro sc root rest r v h hr
    simp only [evalA, h, pathGet_undef, hr]

theorem absent_path_eval_amended_witness :
    evalA (JSVal.obj []) (AExpr.pipe (AExpr.path "missing" []) "upper" []) = Except.ok (JSVal.str "") ∧
    evalA (JSVal.obj []) (AExpr.plus (AExpr.path "missing" []) (AExpr.lit (JSVal.str "x"))) =
      Except.ok (angularPlus JSVal.undef (JSVal.str "x")) :=
  ⟨absent_path_eval_amended.2.1 (JSVal.obj []) "missing" [] "upper" rfl (by decide),
   absent_path_eval_amended.2.2.2 (JSVal.obj []) "missing" [] (AExpr.lit (JSVal.str "x")) (JSVal.str "x") rfl rfl⟩

/-! ## Claim C8 -/

/-- C8 (counterexample): a failing `/generate` request with no template file
is answered with status 400 and a body that carries only `message` — the
`details` member is absent — so not every failing request receives a report
of shape `{ message, details }`. -/
theorem generate_no_template_no_details :
    (handleGenerate (fun _ _ => MergeResult.renderFail "x") none none).status = 400 ∧
    (handleGenerate (fun _ _ => MergeResult.renderFail "x") none none).details = Details.nothing := by
  decide

/-- C8 (amended): the three failure causes are distinguished by three
pairwise-distinct messages, but their report shapes differ: a missing
template yields a bare `{ message }` with no details; a malformed template
container yields `{ message, details }` with a string detail; a render
failure yields `{ message, details }` whose details are the per-placeholder
`{expression, cause}` records when the renderer supplies them, and the
error-message string otherwise. -/
theorem generate_failure_report_amended :
    (∀ merge d, handleGenerate merge none d =
        ⟨400, "Không tìm thấy file template.", Details.nothing, none⟩) ∧
    (∀ merge buf d e, merge buf (parseDataField d) = MergeResult.malformed e →
        handleGenerate merge (some buf) d =
          ⟨500, "Lỗi server khi tạo DOCX", Details.str e, none⟩) ∧
    (∀ merge buf d es, merge buf (parseDataField d) = MergeResult.renderErrors es →
        handleGenerate merge (some buf) d =
          ⟨500, "Lỗi khi render template DOCX (kiểm tra placeholders).", Details.errors es, none⟩) ∧
    (∀ merge buf d m, merge buf (parseDataField d) = MergeResult.renderFail m →
        handleGenerate merge (some buf) d =
          ⟨500, "Lỗi khi render template DOCX (kiểm tra placeholders).", Details.str m, none⟩) ∧
    (("Không tìm thấy file template." : String) ≠ "Lỗi server khi tạo DOCX" ∧
     ("Không tìm thấy file template." : String) ≠ "Lỗi khi render template DOCX (kiểm tra placeholders)." ∧
     ("Lỗi server khi tạo DOCX" : String) ≠ "Lỗi khi render template DOCX (kiểm tra placeholders).") := by
  refine ⟨fun merge d => rfl, ?_, ?_, ?_, by decide⟩
  · intro merge buf d e h
    simp only [handleGenerate, h]
  · intro merge buf d es h
    simp only [handleGenerate, h]
  · intro merge buf d m h
    simp only [handleGenerate, h]

theorem generate_failure_report_amended_witness :
    handleGenerate (fun _ _ => MergeResult.malformed "boom") (some [1]) none =
      ⟨500, "Lỗi server khi tạo DOCX", Details.str "boom", none⟩ :=
  generate_failure_report_amended.2.1 (fun _ _ => MergeResult.malformed "boom") [1] none "boom" rfl

/-! ## Claim C10 -/

/-- C10: a present but syntactically invalid `data` field does not reject
the request: the parse failure is caught, the scope falls back to the empty
object, the handler behaves exactly as if no data had been supplied, and a
successful engine run still returns the 200 response with the document
bytes. -/
theorem invalid_json_empty_scope :
    (∀ s, jsonParse s = none → parseDataField (some s) = JSVal.obj []) ∧
    (∀ merge buf s, jsonParse s = none →
        handleGenerate merge (some buf) (some s) = handleGenerate merge (some buf) none) ∧
    (∀ merge buf s out, jsonParse s = none → merge buf (JSVal.obj []) = MergeResult.success out →
        handleGenerate merge (some buf) (some s) = ⟨200, "", Details.nothing, some out⟩) := by
  refine ⟨?_, ?_, ?_⟩
  · intro s h
    simp only [parseDataField, h, Option.getD_none]
  · intro merge buf s h
    simp only [handleGenerate, parseDataField, h, Option.getD_none]
  · intro merge buf s out h hm
    simp only [handleGenerate, parseDataField, h, Option.getD_none, hm]

theorem invalid_json_empty_scope_witness :
    handleGenerate (fun _ _ => MergeResult.success [7]) (some []) (some "not json") =
      ⟨200, "", Details.nothing, some [7]⟩ :=
  invalid_json_empty_scope.2.2 (fun _ _ => MergeResult.success [7]) [] "not json" [7] rfl rfl

/-! ## Claim C9 -/

/-- C9 (counterexample): the same template entries and the same data, run at
wall-clock seconds 0 and 2, produce different output bytes: docxtemplater
re-adds the rewritten `word/document.xml` entry to the container and PizZip
stamps re-added entries with the current time, which lands in the zip
header's DOS timestamp field, so repeated merges are not byte-identical. -/
theorem merge_output_time_dependent :
    generateBytes [⟨"word/document.xml", "x \x7ba\x7d", 7⟩] (JSVal.obj [("a", JSVal.str "1")]) 0 ≠
    generateBytes [⟨"word/document.xml", "x \x7ba\x7d", 7⟩] (JSVal.obj [("a", JSVal.str "1")]) 2 := by
  decide

/-- C9 (amended): the output bytes are a deterministic function of the
template bytes, the data, and the run's wall-clock time, and the clock
enters only through the 2-second-granular DOS timestamp stamped on the
rewritten document part: two runs whose times yield the same DOS timestamp
produce byte-identical output. -/
theorem merge_deterministic_given_timestamp (tpl : List ZipEntry) (data : JSVal) (n₁ n₂ : Nat)
    (h : dosTimestamp n₁ = dosTimestamp n₂) :
    generateBytes tpl data n₁ = generateBytes tpl data n₂ := by
  simp only [generateBytes, renderDocx, h]

theorem merge_deterministic_given_timestamp_witness :
    generateBytes [⟨"word/document.xml", "x", 7⟩] (JSVal.obj []) 0 =
    generateBytes [⟨"word/document.xml", "x", 7⟩] (JSVal.obj []) 1 :=
  merge_deterministic_given_timestamp [⟨"word/document.xml", "x", 7⟩] (JSVal.obj []) 0 1 (by decide)

/-! ## Claim C6 -/

theorem dropWhile_none (p : Char → Bool) (l : List Char) (h : ∀ c ∈ l, p c = false) :
    l.dropWhile p = l := by
  cases l with
  | nil => rfl
  | cons a as => simp [List.dropWhile_cons, h a (List.mem_cons_self a as)]

theorem digit_facts (c : Char) (h : c.isDigit = true) :
    c ≠ '-' ∧ c ≠ '+' ∧ c ≠ '.' ∧ c ≠ 'e' ∧ c ≠ 'E' ∧ isJsWs c = false := by
  have hws : isJsWs c = false := by
    cases hx : isJsWs c with
    | false => rfl
    | true =>
      have hc := by simpa [isJsWs] using hx
      rcases hc with ((rfl | rfl) | rfl) | rfl <;> exact absurd h (by decide)
  refine ⟨fun he => ?_, fun he => ?_, fun he => ?_, fun he => ?_, fun he => ?_, hws⟩
  all_goals subst he
  all_goals exact absurd h (by decide)

/-- `jsParseInt` on a pure digit string is its decimal value. -/
theorem jsParseInt_digits (ds : List Char) (h0 : ds ≠ []) (hd : ∀ c ∈ ds, c.isDigit = true) :
    jsParseInt (String.mk ds) = some (parseNat ds : Int) := by
  obtain ⟨d0, rest, rfl⟩ : ∃ d0 rest, ds = d0 :: rest := by
    cases ds with
    | nil => exact absurd rfl h0
    | cons a as => exact ⟨a, as, rfl⟩
  have h0d := hd d0 (List.mem_cons_self d0 rest)
  obtain ⟨hm, hp, _, _, _, hw⟩ := digit_facts d0 h0d
  have hcond : ¬(d0 = '-' ∨ d0 = '+') := fun hor => hor.elim hm hp
  have hdrop : (d0 :: rest).dropWhile isJsWs = d0 :: rest :=
    dropWhile_none _ _ (fun c hc => (digit_facts c (hd c hc)).2.2.2.2.2)
  have htake : (d0 :: rest).takeWhile Char.isDigit = d0 :: rest := takeWhile_all _ _ hd
  simp only [jsParseInt, hdrop, List.headD_cons, if_neg hm, if_neg hcond, htake]
  simp

/-- `jsParseInt` on a minus sign and digits is the negated value. -/
theorem jsParseInt_neg_digits (ds : List Char) (h0 : ds ≠ []) (hd : ∀ c ∈ ds, c.isDigit = true) :
    jsParseInt (String.mk ('-' :: ds)) = some (-(parseNat ds : Int)) := by
  have hdrop : ('-' :: ds).dropWhile isJsWs = '-' :: ds := rfl
  have htake : ds.takeWhile Char.isDigit = ds := takeWhile_all _ _ hd
  simp only [jsParseInt, hdrop, List.headD_cons, if_pos rfl, if_pos (Or.inl rfl), List.tail_cons, htake]
  simp [htake, h0]

/-- C6: `limitTo` truncates the string form of its input to the first `n`
characters: for a digit-string argument the prefix length is its decimal
value; a negative argument is clamped to zero characters; a truthy argument
whose string form has no leading integer (`parseInt` NaN) also yields zero
characters, as does an absent argument; and the two spec examples hold. -/
theorem limitTo_filter_spec :
    (∀ (v : JSVal) (ds : List Char), ds ≠ [] → (∀ c ∈ ds, c.isDigit = true) →
        limitToFilter v (JSVal.str (String.mk ds)) =
          String.mk ((ensureString v).data.take (parseNat ds))) ∧
    (∀ (v : JSVal) (ds : List Char), ds ≠ [] → (∀ c ∈ ds, c.isDigit = true) →
        limitToFilter v (JSVal.str (String.mk ('-' :: ds))) = "") ∧
    (∀ (v n : JSVal), jsTruthy n = true → jsParseInt (jsToString n) = none →
        limitToFilter v n = "") ∧
    (∀ v : JSVal, limitToFilter v JSVal.undef = "") ∧
    limitToFilter (JSVal.str "hello") (JSVal.num (Dec.ofNat 3)) = "hel" ∧
    limitToFilter (JSVal.str "hi") (JSVal.num (Dec.ofNat 10)) = "hi" := by
  refine ⟨?_, ?_, ?_, fun v => rfl, by decide, by decide⟩
  · intro v ds h0 hd
    have htr : jsTruthy (JSVal.str (String.mk ds)) = true := by
      simp [jsTruthy, h0]
    have hparse := jsParseInt_digits ds h0 hd
    simp only [limitToFilter, htr, if_true, jsToString, hparse]
    have hmax : (max 0 (parseNat ds : Int)).toNat = parseNat ds := by omega
    rw [hmax]
  · intro v ds h0 hd
    have htr : jsTruthy (JSVal.str (String.mk ('-' :: ds))) = true := by
      simp [jsTruthy]
    have hparse := jsParseInt_neg_digits ds h0 hd
    simp only [limitToFilter, htr, if_true, jsToString, hparse]
    have hmax : (max 0 (-(parseNat ds : Int))).toNat = 0 := by omega
    rw [hmax]
    rfl
  · intro v n htr hparse
    simp only [limitToFilter, htr, if_true, hparse]
    rfl

theorem limitTo_filter_spec_witness :
    limitToFilter (JSVal.str "hello") (JSVal.str "4") =
      String.mk ((ensureString (JSVal.str "hello")).data.take (parseNat ['4'])) ∧
    limitToFilter (JSVal.str "hello") (JSVal.str (String.mk ('-' :: ['4']))) = "" ∧
    limitToFilter (JSVal.str "hello") (JSVal.str "abc") = "" :=
  ⟨limitTo_filter_spec.1 (JSVal.str "hello") ['4'] (by decide) (by decide),
   limitTo_filter_spec.2.1 (JSVal.str "hello") ['4'] (by decide) (by decide),
   limitTo_filter_spec.2.2.1 (JSVal.str "hello") (JSVal.str "abc") (by decide) (by rfl)⟩

/-! ## Digit-string lemmas for the numeric formatting claims -/

theorem natCharsAux_length (fuel : Nat) : ∀ (n k : Nat), n < 10 ^ k →
    (natCharsAux fuel n).length ≤ k := by
  induction fuel with
  | zero => intro n k _; simp [natCharsAux]
  | succ fuel ih =>
    intro n k hn
    cases n with
    | zero => simp [natCharsAux]
    | succ m =>
      cases k with
      | zero => omega
      | succ k0 =>
        have hdiv : (m + 1) / 10 < 10 ^ k0 := by
          rw [Nat.div_lt_iff_lt_mul (by norm_num)]
          calc m + 1 < 10 ^ (k0 + 1) := hn
          _ = 10 ^ k0 * 10 := by ring
        have := ih ((m + 1) / 10) k0 hdiv
        simp only [natCharsAux, List.length_append, List.length_cons, List.length_nil]
        omega

theorem natChars_length_le (m k : Nat) (h : m < 10 ^ k) (hk : 0 < k) :
    (natChars m).length ≤ k := by
  unfold natChars
  by_cases hm : m = 0
  · simp [hm]; omega
  · rw [if_neg hm]
    exact natCharsAux_length m m k h

theorem digitChar_isDigit (k : Nat) (h : k < 10) : (Nat.digitChar k).isDigit = true := by
  interval_cases k <;> decide

theorem natCharsAux_digit (fuel : Nat) : ∀ (n : Nat) (c : Char), c ∈ natCharsAux fuel n →
    c.isDigit = true := by
  induction fuel with
  | zero => intro n c hc; simp [natCharsAux] at hc
  | succ fuel ih =>
    intro n c hc
    cases n with
    | zero => simp [natCharsAux] at hc
    | succ m =>
      simp only [natCharsAux, List.mem_append, List.mem_singleton] at hc
      rcases hc with hc | rfl
      · exact ih _ c hc
      · exact digitChar_isDigit _ (Nat.mod_lt _ (by norm_num))

theorem natChars_digit (m : Nat) (c : Char) (hc : c ∈ natChars m) : c.isDigit = true := by
  unfold natChars at hc
  by_cases hm : m = 0
  · rw [if_pos hm] at hc
    simp at hc
    subst hc; decide
  · rw [if_neg hm] at hc
    exact natCharsAux_digit m m c hc

theorem padLeft_length (n : Nat) (c : Char) (l : List Char) (h : l.length ≤ n) :
    (padLeft n c l).length = n := by
  simp [padLeft]
  omega

theorem padLeft_mem (n : Nat) (c : Char) (l : List Char) (x : Char) (hx : x ∈ padLeft n c l) :
    x = c ∨ x ∈ l := by
  simp only [padLeft, List.mem_append, List.mem_replicate] at hx
  rcases hx with ⟨_, rfl⟩ | hx
  · exact Or.inl rfl
  · exact Or.inr hx

theorem trimTZ_of_length_le (keep : Nat) (l : List Char) (h : l.length ≤ keep) :
    trimTZ keep l = l := by
  unfold trimTZ
  have hmax : max keep (l.length - trailZeros l) = keep := by omega
  rw [hmax]
  exact List.take_of_length_le h

theorem group3Rev_mem (l : List Char) (c : Char) (hc : c ∈ group3Rev l) : c ∈ l ∨ c = '.' := by
  induction l using group3Rev.induct with
  | case1 a b c2 d rest ih =>
    simp only [group3Rev, List.mem_cons] at hc
    rcases hc with rfl | rfl | rfl | rfl | hc
    · exact Or.inl (by simp)
    · exact Or.inl (by simp)
    · exact Or.inl (by simp)
    · exact Or.inr rfl
    · rcases ih hc with hm | rfl
      · exact Or.inl (by simp only [List.mem_cons] at hm ⊢; tauto)
      · exact Or.inr rfl
  | case2 l hne =>
    rw [group3Rev] at hc
    · exact Or.inl hc
    · exact hne

theorem group3_mem (l : List Char) (c : Char) (hc : c ∈ group3 l) : c ∈ l ∨ c = '.' := by
  unfold group3 at hc
  rw [List.mem_reverse] at hc
  rcases group3Rev_mem _ _ hc with hm | rfl
  · exact Or.inl (List.mem_reverse.mp hm)
  · exact Or.inr rfl

/-! ## Claim C4 -/

/-- C4: the `number` filter parses its (string-coerced) input with
`parseFloat`; NaN falls back to the original string form via
`ensureString`; a finite parse is formatted by the `vi-VN` formatter with
`minimumFractionDigits = maximumFractionDigits = frac` (default 0), whose
output for positive `frac` always consists of a comma-free integer part
(grouped in threes) followed by `','` and exactly `frac` fractional digits,
fixed and untrimmed; in particular `number(123.456, 2) = "123,46"` and
grouping appears in `number(1234567.891, 2) = "1.234.567,89"`. -/
theorem number_filter_spec :
    (∀ (v : JSVal) (frac : Nat), jsParseFloat (jsToString v) = JSFloat.nan →
        numberFilter v frac = ensureString v) ∧
    (∀ (v : JSVal) (frac : Nat) (d : Dec), jsParseFloat (jsToString v) = JSFloat.fin d →
        numberFilter v frac = formatViVN d frac frac) ∧
    (∀ (d : Dec) (frac : Nat), 0 < frac →
        ∃ intPart : List Char,
          formatViVN d frac frac = String.mk (intPart ++ ',' :: viFracFull d frac) ∧
          (viFracFull d frac).length = frac ∧
          (∀ c ∈ viFracFull d frac, c.isDigit = true) ∧
          ',' ∉ intPart) ∧
    numberFilter (JSVal.num ⟨false, 123456, 3⟩) 2 = "123,46" ∧
    numberFilter (JSVal.num ⟨false, 1234567891, 3⟩) 2 = "1.234.567,89" := by
  refine ⟨?_, ?_, ?_, by decide, by decide⟩
  · intro v frac h
    simp only [numberFilter, h]
  · intro v frac d h
    simp only [numberFilter, h]
    rfl
  · intro d frac hfrac
    have hlen : (viFracFull d frac).length = frac := by
      apply padLeft_length
      exact natChars_length_le _ _ (Nat.mod_lt _ (by positivity)) hfrac
    have hdig : ∀ c ∈ viFracFull d frac, c.isDigit = true := by
      intro c hc
      rcases padLeft_mem _ _ _ _ hc with rfl | hc2
      · decide
      · exact natChars_digit _ _ hc2
    have htrim : viFracTrimmed d frac frac = viFracFull d frac :=
      trimTZ_of_length_le _ _ (le_of_eq hlen)
    refine ⟨(if d.neg then ['-'] else []) ++ group3 (natChars (viRounded d frac / 10 ^ frac)),
      ?_, hlen, hdig, ?_⟩
    · unfold formatViVN
      rw [htrim]
      obtain ⟨f0, frest, hf⟩ : ∃ f0 frest, viFracFull d frac = f0 :: frest := by
        cases hv : viFracFull d frac with
        | nil => rw [hv] at hlen; simp only [List.length_nil] at hlen; omega
        | cons a as => exact ⟨a, as, rfl⟩
      rw [hf]
    · intro hmem
      simp only [List.mem_append] at hmem
      rcases hmem with hs | hg
      · by_cases hneg : d.neg
        · rw [if_pos hneg] at hs
          simp at hs
        · rw [if_neg hneg] at hs
          simp at hs
      · rcases group3_mem _ _ hg with hm | he
        · exact absurd (natChars_digit _ _ hm) (by decide)
        · exact absurd he (by decide)

theorem number_filter_spec_witness :
    numberFilter (JSVal.str "abc") 2 = ensureString (JSVal.str "abc") ∧
    numberFilter (JSVal.str "123.456") 2 = formatViVN ⟨false, 123456, 3⟩ 2 2 ∧
    (∃ intPart : List Char,
        formatViVN ⟨false, 123456, 3⟩ 2 2 = String.mk (intPart ++ ',' :: viFracFull ⟨false, 123456, 3⟩ 2) ∧
        (viFracFull ⟨false, 123456, 3⟩ 2).length = 2 ∧
        (∀ c ∈ viFracFull ⟨false, 123456, 3⟩ 2, c.isDigit = true) ∧
        ',' ∉ intPart) :=
  ⟨number_filter_spec.1 (JSVal.str "abc") 2 (by decide),
   number_filter_spec.2.1 (JSVal.str "123.456") 2 ⟨false, 123456, 3⟩ (by decide),
   number_filter_spec.2.2.1 ⟨false, 123456, 3⟩ 2 (by decide)⟩

/-! ## Claim C5 -/

theorem natCharsAux_exists_nonzero : ∀ (fuel n : Nat), n ≠ 0 → n ≤ fuel →
    ∃ c ∈ natCharsAux fuel n, c ≠ '0' := by
  intro fuel
  induction fuel with
  | zero => intro n h0 hle; omega
  | succ fuel ih =>
    intro n h0 hle
    cases n with
    | zero => exact absurd rfl h0
    | succ m =>
      by_cases hmod : (m + 1) % 10 = 0
      · have hdiv0 : (m + 1) / 10 ≠ 0 := by
          intro hx
          have := Nat.div_add_mod (m + 1) 10
          omega
        have hlt : (m + 1) / 10 < m + 1 := Nat.div_lt_self (by omega) (by norm_num)
        obtain ⟨c, hc, hcne⟩ := ih ((m + 1) / 10) hdiv0 (by omega)
        refine ⟨c, ?_, hcne⟩
        simp only [natCharsAux, List.mem_append]
        exact Or.inl hc
      · refine ⟨Nat.digitChar ((m + 1) % 10), ?_, ?_⟩
        · simp [natCharsAux]
        · have hk1 : 0 < (m + 1) % 10 := Nat.pos_of_ne_zero hmod
          have hk2 : (m + 1) % 10 < 10 := Nat.mod_lt _ (by norm_num)
          set k := (m + 1) % 10 with hk
          interval_cases k <;> decide

theorem natChars_exists_nonzero (n : Nat) (h : n ≠ 0) : ∃ c ∈ natChars n, c ≠ '0' := by
  unfold natChars
  rw [if_neg h]
  exact natCharsAux_exists_nonzero n n h le_rfl

theorem takeWhile_length_le (p : Char → Bool) (l : List Char) :
    (l.takeWhile p).length ≤ l.length :=
  (List.takeWhile_prefix p).length_le

theorem trailZeros_le (l : List Char) : trailZeros l ≤ l.length := by
  unfold trailZeros
  calc (l.reverse.takeWhile (fun c => c = '0')).length
      ≤ l.reverse.length := takeWhile_length_le _ _
    _ = l.length := List.length_reverse l

theorem trailZeros_lt (l : List Char) (hex : ∃ c ∈ l, c ≠ '0') : trailZeros l < l.length := by
  rcases hex with ⟨c, hc, hcne⟩
  by_contra hge
  have heq : trailZeros l = l.length := le_antisymm (trailZeros_le l) (not_lt.mp hge)
  unfold trailZeros at heq
  have hpre : (l.reverse.takeWhile (fun c => c = '0')) <+: l.reverse := List.takeWhile_prefix _
  have heq2 : l.reverse.takeWhile (fun c => c = '0') = l.reverse :=
    hpre.eq_of_length (by rw [heq, List.length_reverse])
  have hcrev : c ∈ l.reverse.takeWhile (fun c => c = '0') := by
    rw [heq2]
    exact List.mem_reverse.mpr hc
  have := List.mem_takeWhile_imp hcrev
  exact hcne (by simpa using this)

theorem viRounded_whole (d : Dec) (h : d.isWhole = true) (k : Nat) :
    viRounded d k = d.ipart * 10 ^ k := by
  have hdvd : 10 ^ d.scale ∣ d.man :=
    Nat.dvd_of_mod_eq_zero (by simpa [Dec.isWhole, Dec.fpart] using h)
  obtain ⟨q, hq⟩ := hdvd
  have hipart : d.ipart = q := by
    simp [Dec.ipart, hq, Nat.mul_div_cancel_left _ (by positivity : (0:Nat) < 10 ^ d.scale)]
  unfold viRounded
  rw [hq]
  have hnum : 2 * (10 ^ d.scale * q) * 10 ^ k + 10 ^ d.scale =
      10 ^ d.scale * (2 * (q * 10 ^ k) + 1) := by ring
  have hden : 2 * 10 ^ d.scale = 10 ^ d.scale * 2 := by ring
  rw [hnum, hden, Nat.mul_div_mul_left _ _ (by positivity : (0:Nat) < 10 ^ d.scale),
    Nat.mul_add_div (by norm_num)]
  simp [hipart]

theorem formatViVN_whole (d : Dec) (h : d.isWhole = true) :
    formatViVN d 0 20 = String.mk ((if d.neg then ['-'] else []) ++ group3 (natChars d.ipart)) := by
  have hr : viRounded d 20 = d.ipart * 10 ^ 20 := viRounded_whole d h 20
  have hempty : trimTZ 0 (padLeft 20 '0' (natChars (d.ipart * 10 ^ 20 % 10 ^ 20))) = [] := by
    rw [Nat.mul_mod_left]
    rfl
  unfold formatViVN viFracTrimmed viFracFull
  rw [hr, hempty, Nat.mul_div_cancel _ (by positivity : (0:Nat) < 10 ^ 20)]
  simp

theorem formatViVN_frac (d : Dec) (hs : d.scale ≤ 20) (h : d.isWhole = false) :
    ∃ f : List Char, f ≠ [] ∧
      formatViVN d 0 20 = String.mk ((if d.neg then ['-'] else []) ++
        group3 (natChars (viRounded d 20 / 10 ^ 20)) ++ ',' :: f) := by
  have hfp : d.fpart ≠ 0 := by simpa [Dec.isWhole] using h
  have hsplit : (10:Nat) ^ 20 = 10 ^ d.scale * 10 ^ (20 - d.scale) := by
    rw [← pow_add]
    congr 1
    omega
  have hexact : viRounded d 20 = d.man * 10 ^ (20 - d.scale) := by
    unfold viRounded
    have hnum : 2 * d.man * 10 ^ 20 + 10 ^ d.scale =
        10 ^ d.scale * (2 * (d.man * 10 ^ (20 - d.scale)) + 1) := by
      rw [hsplit]
      ring
    have hden : 2 * 10 ^ d.scale = 10 ^ d.scale * 2 := by ring
    rw [hnum, hden, Nat.mul_div_mul_left _ _ (by positivity : (0:Nat) < 10 ^ d.scale),
      Nat.mul_add_div (by norm_num)]
    simp
  have hman : 10 ^ d.scale * d.ipart + d.fpart = d.man := Nat.div_add_mod d.man (10 ^ d.scale)
  have hfrval : viRounded d 20 % 10 ^ 20 = d.fpart * 10 ^ (20 - d.scale) := by
    rw [hexact, ← hman]
    have hexp : (10 ^ d.scale * d.ipart + d.fpart) * 10 ^ (20 - d.scale) =
        d.fpart * 10 ^ (20 - d.scale) + 10 ^ 20 * d.ipart := by
      rw [hsplit]
      ring
    rw [hexp, Nat.add_mul_mod_self_left]
    exact Nat.mod_eq_of_lt (by
      calc d.fpart * 10 ^ (20 - d.scale) < 10 ^ d.scale * 10 ^ (20 - d.scale) := by
            have hlt : d.fpart < 10 ^ d.scale := Nat.mod_lt _ (by positivity)
            exact mul_lt_mul_of_pos_right hlt (by positivity)
        _ = 10 ^ 20 := hsplit.symm)
  have hfr : viRounded d 20 % 10 ^ 20 ≠ 0 := by
    rw [hfrval]
    positivity
  have hlen20 : (viFracFull d 20).length = 20 :=
    padLeft_length _ _ _ (natChars_length_le _ _ (Nat.mod_lt _ (by positivity)) (by norm_num))
  have hex : ∃ c ∈ viFracFull d 20, c ≠ '0' := by
    obtain ⟨c, hc, hcne⟩ := natChars_exists_nonzero _ hfr
    exact ⟨c, List.mem_append_right _ hc, hcne⟩
  have htz : trailZeros (viFracFull d 20) < 20 := by
    have := trailZeros_lt _ hex
    omega
  have hne : viFracTrimmed d 0 20 ≠ [] := by
    unfold viFracTrimmed trimTZ
    rw [hlen20]
    intro hnil
    rw [List.take_eq_nil_iff] at hnil
    rcases hnil with hnil | hnil
    · omega
    · have := hlen20
      rw [hnil] at this
      simp at this
  obtain ⟨f0, frest, hf⟩ : ∃ f0 frest, viFracTrimmed d 0 20 = f0 :: frest := by
    cases hv : viFracTrimmed d 0 20 with
    | nil => exact absurd hv hne
    | cons a as => exact ⟨a, as, rfl⟩
  refine ⟨f0 :: frest, by simp, ?_⟩
  unfold formatViVN
  rw [hf]

/-- C5: `numflex` parses like `number` (NaN falls back to the original
string form) and formats with `vi-VN` grouping and variable fractional
digits (`maximumFractionDigits: 20`): a whole number renders as its grouped
integer part with zero fractional digits and no decimal separator, while a
non-whole value (fraction expressible within 20 digits) keeps a nonempty
fractional part after the `','`; in particular `numflex(100) = "100"` and
`numflex(100.5) = "100,5"`. -/
theorem numflex_filter_spec :
    (∀ v : JSVal, jsParseFloat (jsToString v) = JSFloat.nan →
        numflexFilter v = ensureString v) ∧
    (∀ (v : JSVal) (d : Dec), jsParseFloat (jsToString v) = JSFloat.fin d →
        numflexFilter v = formatViVN d 0 20) ∧
    (∀ d : Dec, d.isWhole = true →
        formatViVN d 0 20 = String.mk ((if d.neg then ['-'] else []) ++ group3 (natChars d.ipart))) ∧
    (∀ d : Dec, d.scale ≤ 20 → d.isWhole = false →
        ∃ f : List Char, f ≠ [] ∧
          formatViVN d 0 20 = String.mk ((if d.neg then ['-'] else []) ++
            group3 (natChars (viRounded d 20 / 10 ^ 20)) ++ ',' :: f)) ∧
    numflexFilter (JSVal.num ⟨false, 100, 0⟩) = "100" ∧
    numflexFilter (JSVal.num ⟨false, 1005, 1⟩) = "100,5" := by
  refine ⟨?_, ?_, ?_, formatViVN_frac, by decide, by decide⟩
  · intro v h
    simp only [numflexFilter, h]
  · intro v d h
    simp only [numflexFilter, h]
    rfl
  · intro d h
    exact formatViVN_whole d h

theorem numflex_filter_spec_witness :
    numflexFilter (JSVal.str "xyz") = ensureString (JSVal.str "xyz") ∧
    numflexFilter (JSVal.str "100.5") = formatViVN ⟨false, 1005, 1⟩ 0 20 ∧
    formatViVN ⟨false, 100, 0⟩ 0 20 =
      String.mk ((if (false : Bool) then ['-'] else []) ++ group3 (natChars (Dec.ipart ⟨false, 100, 0⟩))) ∧
    (∃ f : List Char, f ≠ [] ∧
        formatViVN ⟨false, 1005, 1⟩ 0 20 = String.mk ((if (false : Bool) then ['-'] else []) ++
          group3 (natChars (viRounded ⟨false, 1005, 1⟩ 20 / 10 ^ 20)) ++ ',' :: f)) :=
  ⟨numflex_filter_spec.1 (JSVal.str "xyz") (by decide),
   numflex_filter_spec.2.1 (JSVal.str "100.5") ⟨false, 1005, 1⟩ (by decide),
   numflex_filter_spec.2.2.1 ⟨false, 100, 0⟩ (by decide),
   numflex_filter_spec.2.2.2.1 ⟨false, 1005, 1⟩ (by norm_num) (by decide)⟩

/-! ## Claim C2 -/

